import Mathlib

/-!
Verification of the ETG dump-sync worker (src/main.js and its variants)
against its natural-language specification.

The pipeline: download a zstd-compressed JSONL dump, check the zstd magic
header, decompress and split into lines, JSON-decode each non-blank line,
filter records through a completeness policy, group survivors into batches
of BATCH_SIZE, and deliver each batch to the sink with bounded linear-backoff
retry.  We embed the record model (decoded JSON values), the validation
policies of main.js (isCompleteHotel) and of the part_002 variant
(isValidHotel), the retry loop (upsertBatch), and the run loop with its
counters, batching, logging and fatal-error behaviour.

Modelling conventions:
- JS strings are modelled as lists of characters (JStr), so that all string
  operations reduce in the kernel.
- JS numbers are modelled as rationals.  Values decoded from JSON can never
  be NaN or Infinity (JSON has no such literals), so a JValue.num is always
  a finite number; NaN/Infinity arise only from coercions and are modelled
  as Option.none.
- JSON.parse and the zstd decompressor are external: an input line is a raw
  text together with its parse result (none = JSON.parse throws), and the
  decompressed line stream is given directly.
-/

/-- Characters of a JS string. -/
abbrev JStr := List Char

/-- JavaScript's String.prototype.trim: strip whitespace from both ends. -/
def jsTrim (cs : JStr) : JStr :=
  ((cs.dropWhile Char.isWhitespace).reverse.dropWhile Char.isWhitespace).reverse

/-- JavaScript's String.prototype.startsWith. -/
def startsWithL (p s : JStr) : Bool := s.take p.length == p

/-- A JSON value as produced by JSON.parse.  JSON has no NaN/Infinity/undefined,
so numbers are finite and modelled as rationals. -/
inductive JValue : Type
  | null : JValue
  | bool : Bool → JValue
  | num : ℚ → JValue
  | str : JStr → JValue
  | arr : List JValue → JValue
  | obj : List (JStr × JValue) → JValue

/-- Property access h?.k / h.k: some value if h is an object with field k,
otherwise none (JS undefined).  JSON.parse keeps the last duplicate key, and
we assume keys are unique as they are in every real dump record. -/
def jget (h : JValue) (k : JStr) : Option JValue :=
  match h with
  | .obj fields => (fields.find? (fun p => p.1 == k)).map (fun p => p.2)
  | _ => none

/-- JS truthiness of a defined value: null, false, 0 and "" are falsy;
objects and arrays are always truthy. -/
def jsTruthy (v : JValue) : Bool :=
  match v with
  | .null => false
  | .bool b => b
  | .num q => !(q == 0)
  | .str s => !(s == [])
  | .arr _ => true
  | .obj _ => true

/-- Truthiness of a possibly-undefined value (undefined is falsy). -/
def optTruthy (v : Option JValue) : Bool :=
  match v with
  | some w => jsTruthy w
  | none => false

/-- Value of a list of decimal digits, none if empty or a non-digit occurs. -/
def digitsVal (cs : List Char) : Option ℕ :=
  if cs.isEmpty then none
  else if cs.all Char.isDigit then
    some (cs.foldl (fun a c => 10 * a + (c.toNat - 48)) 0)
  else none

/-- Unsigned decimal with optional fraction part: "12", "12.5", "12.", ".5". -/
def decimalVal (cs : List Char) : Option ℚ :=
  match cs.splitOn '.' with
  | [intPart] => (digitsVal intPart).map (fun n => (n : ℚ))
  | [intPart, fracPart] =>
    if intPart.isEmpty && fracPart.isEmpty then none
    else
      let i : ℚ := ((digitsVal intPart).getD 0 : ℕ)
      if fracPart.isEmpty then
        if intPart.isEmpty then none else some i
      else
        (digitsVal fracPart).map (fun f => i + (f : ℚ) / (10 : ℚ) ^ fracPart.length)
  | _ => none

/-- JS Number(string): trims whitespace, empty means 0, else a finite decimal
number.  Exponent/hex forms and "Infinity" are not modelled and map to none;
none stands for a non-finite result (NaN or Infinity), which every use site
(Number.isFinite guards and the less-than comparison against the star-rating
minimum, where NaN comparisons are false) treats the same way. -/
def strToNumber (s : JStr) : Option ℚ :=
  let t := jsTrim s
  if t.isEmpty then some 0
  else
    match t with
    | '-' :: rest => (decimalVal rest).map (fun q => -q)
    | '+' :: rest => decimalVal rest
    | _ => decimalVal t

/-- JS Number(x) coercion, none = non-finite (NaN or Infinity).  Arrays and
objects coerce through their string form; we model the empty array (which
stringifies to "" hence 0) and treat all other arrays and all objects as NaN,
which is exact for objects and a harmless approximation for non-empty arrays
(no dump field ever holds an array where a number is expected). -/
def jsToNumber (v : JValue) : Option ℚ :=
  match v with
  | .null => some 0
  | .bool b => some (if b then 1 else 0)
  | .num q => some q
  | .str s => strToNumber s
  | .arr xs => if xs.isEmpty then some 0 else none
  | .obj _ => none

/-- Shared helper of both variants: part_002's toNumber(x) is
"typeof x === 'number' ? x : Number(x)" filtered through Number.isFinite,
and main.js writes Number(h?.latitude) followed by Number.isFinite — both
reduce to this function (undefined coerces to NaN, i.e. none). -/
def toNumber (x : Option JValue) : Option ℚ :=
  match x with
  | some v => jsToNumber v
  | none => none

/-- Run configuration (src/main.js top of file; thresholds and knobs the
variants read from the environment). -/
structure Config : Type where
  minImages : ℕ
  minStarRating : ℚ
  requireGeo : Bool
  requireAddress : Bool
  requireCountry : Bool
  batchSize : ℕ
  upsertRetries : ℕ
  upsertRetryMs : ℕ
  logEvery : ℕ

/-- Default configuration of src/main.js (BATCH_SIZE 500, LOG_EVERY 5000,
UPSERT_RETRIES 5, UPSERT_RETRY_MS 1500, MIN_IMAGES 1, MIN_STAR_RATING 0,
REQUIRE_GEO/ADDRESS/COUNTRY all true). -/
def mainDefaults : Config :=
  ⟨1, 0, true, true, true, 500, 5, 1500, 5000⟩

/-- Guard "!h || typeof h !== 'object'" of the validators: passes exactly for
objects and arrays (typeof null is "object" but null is falsy). -/
def objectGuard (h : JValue) : Bool :=
  match h with
  | .obj _ => true
  | .arr _ => true
  | _ => false

/-- src/main.js hasAtLeastNImages: take h?.images if it is an array, keep
entries that are either non-strings or strings with non-blank trim, and
require at least n survivors. -/
def hasAtLeastNImages (h : JValue) (n : ℕ) : Bool :=
  let imgs : List JValue :=
    match jget h "images".toList with
    | some (.arr xs) => xs
    | _ => []
  let valid := imgs.filter (fun x =>
    match x with
    | .str s => 0 < (jsTrim s).length
    | _ => true)
  n ≤ valid.length

/-- src/main.js hasGeo: Number(h?.latitude) and Number(h?.longitude) are both
finite.  No range check is performed here. -/
def hasGeo (h : JValue) : Bool :=
  (toNumber (jget h "latitude".toList)).isSome &&
    (toNumber (jget h "longitude".toList)).isSome

/-- src/main.js hasCountry: h.region must be a truthy object for its
country_code to be read (arrays pass typeof "object" but have no such
property), and the code must be a string whose trim has length exactly 2. -/
def hasCountry (h : JValue) : Bool :=
  let cc : Option JValue :=
    match jget h "region".toList with
    | some (.obj fields) =>
      jget (JValue.obj fields) "country_code".toList
    | _ => none
  match cc with
  | some (.str s) => (jsTrim s).length == 2
  | _ => false

/-- Value compared against MIN_STAR_RATING in src/main.js:
Number(h.star_rating || 0), i.e. a falsy or absent star_rating is replaced
by 0 before coercion; none = NaN. -/
def starRatingValue (h : JValue) : Option ℚ :=
  let base : JValue :=
    match jget h "star_rating".toList with
    | some v => if jsTruthy v then v else .num 0
    | none => .num 0
  jsToNumber base

/-- src/main.js isCompleteHotel, early returns mirrored as nested
conditionals.  Note the star-rating test "sr < MIN_STAR_RATING" rejects only
when the comparison is true, so a NaN star rating (none) is not rejected. -/
def isCompleteHotel (cfg : Config) (h : JValue) : Bool :=
  if !objectGuard h then false
  else if !(match jget h "id".toList with
       | some (.str s) => !(s == [])
       | _ => false) then false
  else if !(match jget h "name".toList with
       | some (.str s) => !(s == []) && !(jsTrim s == [])
       | _ => false) then false
  else if (match starRatingValue h with
       | some sr => decide (sr < cfg.minStarRating)
       | none => false) then false
  else if !(hasAtLeastNImages h cfg.minImages) then false
  else if cfg.requireAddress &&
      !(match jget h "address".toList with
        | some (.str s) => !(s == []) && !(jsTrim s == [])
        | _ => false) then false
  else if cfg.requireCountry && !(hasCountry h) then false
  else if cfg.requireGeo && !(hasGeo h) then false
  else true

/-- Named sub-checks of isCompleteHotel, used to state that the policy is the
independent conjunction of its per-field tests. -/
def idOk (h : JValue) : Bool :=
  match jget h "id".toList with
  | some (.str s) => !(s == [])
  | _ => false

/-- Name sub-check of isCompleteHotel: a truthy string with non-blank trim. -/
def nameOk (h : JValue) : Bool :=
  match jget h "name".toList with
  | some (.str s) => !(s == []) && !(jsTrim s == [])
  | _ => false

/-- Star-rating sub-check of isCompleteHotel: not (sr < minimum); a NaN
coercion passes because NaN comparisons are false in JS. -/
def starOk (cfg : Config) (h : JValue) : Bool :=
  match starRatingValue h with
  | some sr => !(decide (sr < cfg.minStarRating))
  | none => true

/-- Address sub-check of isCompleteHotel (active only when required). -/
def addressOk (cfg : Config) (h : JValue) : Bool :=
  !cfg.requireAddress ||
    (match jget h "address".toList with
     | some (.str s) => !(s == []) && !(jsTrim s == [])
     | _ => false)

/-- Country sub-check of isCompleteHotel (active only when required). -/
def countryOk (cfg : Config) (h : JValue) : Bool :=
  !cfg.requireCountry || hasCountry h

/-- Geo sub-check of isCompleteHotel (active only when required). -/
def geoOk (cfg : Config) (h : JValue) : Bool :=
  !cfg.requireGeo || hasGeo h

/-- part_002 validImageUrls: map non-strings to "" and strings to their trim,
then keep entries starting with http:// or https://. -/
def validImageUrls (images : Option JValue) : List JStr :=
  match images with
  | some (.arr xs) =>
    (xs.map (fun u =>
      match u with
      | .str s => jsTrim s
      | _ => ([] : JStr))).filter
      (fun u => startsWithL "http://".toList u || startsWithL "https://".toList u)
  | _ => []

/-- part_002 isValidHotel: the stricter policy variant.  Requires a non-blank
trimmed id, a trimmed name of length at least 2, a finite numeric star rating
at least the minimum, at least MIN_IMAGES valid absolute image URLs, and —
when geo is required — finite latitude in [-90, 90] and longitude in
[-180, 180]. -/
def isValidHotel (cfg : Config) (h : JValue) : Bool :=
  if !objectGuard h then false
  else if !(match jget h "id".toList with
       | some (.str s) => !(jsTrim s == [])
       | _ => false) then false
  else if !(match jget h "name".toList with
       | some (.str s) => 2 ≤ (jsTrim s).length
       | _ => false) then false
  else
    match toNumber (jget h "star_rating".toList) with
    | none => false
    | some sr =>
      if decide (sr < cfg.minStarRating) then false
      else if (validImageUrls (jget h "images".toList)).length < cfg.minImages then false
      else if cfg.requireGeo then
        match toNumber (jget h "latitude".toList),
              toNumber (jget h "longitude".toList) with
        | some lat, some lng =>
          if decide (lat < -90) || decide (90 < lat) then false
          else if decide (lng < -180) || decide (180 < lng) then false
          else true
        | _, _ => false
      else true

/-- Response of the sink to one upsert attempt: the HTTP status and the
JSON.parse of the response text (none if the text is not JSON). -/
structure SinkResponse : Type where
  status : ℕ
  body : Option JValue

/-- fetch's res.ok: status in the 2xx range. -/
def respHttpOk (r : SinkResponse) : Bool :=
  (200 ≤ r.status && r.status ≤ 299)

/-- Test "json && json.success === false": the parsed body explicitly reports
an application-level failure. -/
def bodyRejects (b : Option JValue) : Bool :=
  match b with
  | some j =>
    (match jget j "success".toList with
     | some (.bool false) => true
     | _ => false)
  | none => false

/-- Success condition of one attempt in upsertBatch:
"res.ok && (!json || json.success !== false)". -/
def respOk (r : SinkResponse) : Bool :=
  respHttpOk r && !(bodyRejects r.body)

/-- Statuses classified as retryable in upsertBatch. -/
def retryableStatuses : List ℕ := [408, 429, 500, 502, 503, 504]

/-- Outcome of upsertBatch: normal return, or the thrown error with the
attempt number it was thrown on and the failing status; both record the
backoff delays slept (in ms, in order). -/
inductive UpsertResult : Type
  | ok : List ℕ → UpsertResult
  | err : ℕ → ℕ → List ℕ → UpsertResult

/-- Body of the retry loop "for (attempt = 1; attempt <= retries; attempt++)"
of upsertBatch: fuel counts the remaining iterations (retries - attempt + 1),
responses gives the sink's reply to each attempt, sleeps accumulates the
delays slept so far.  Exhausted fuel means the loop ended without throwing
(possible only when retries = 0), which in JS returns undefined, a success. -/
def upsertGo (retries retryMs : ℕ) (responses : ℕ → SinkResponse) :
    ℕ → ℕ → List ℕ → UpsertResult
  | 0, _, sleeps => .ok sleeps
  | fuel + 1, attempt, sleeps =>
    let r := responses attempt
    if respOk r then .ok sleeps
    else if !(retryableStatuses.contains r.status) || attempt == retries then
      .err attempt r.status sleeps
    else
      upsertGo retries retryMs responses fuel (attempt + 1)
        (sleeps ++ [retryMs * attempt])

/-- src/main.js upsertBatch: up to UPSERT_RETRIES attempts, sleeping
UPSERT_RETRY_MS * attempt after a failed retryable attempt, throwing on a
non-retryable failure or when the final attempt fails. -/
def upsertBatch (retries retryMs : ℕ) (responses : ℕ → SinkResponse) :
    UpsertResult :=
  upsertGo retries retryMs responses retries 1 []

/-- Fatal errors a run can throw: an empty download body, a zstd magic
mismatch (carrying the byte preview), or an upsert that exhausted its options
(batch index, attempt thrown on, HTTP status). -/
inductive RunError : Type
  | emptyBody : RunError
  | formatError : List ℕ → RunError
  | upsertFailed : ℕ → ℕ → ℕ → RunError

/-- Console output relevant to the counters contract: the periodic progress
line (kept, scanned, skipped), the final Done summary line (kept, scanned,
skipped), and the Fatal error line printed by the top-level catch. -/
inductive LogEvent : Type
  | progress : ℕ → ℕ → ℕ → LogEvent
  | summary : ℕ → ℕ → ℕ → LogEvent
  | fatal : RunError → LogEvent

/-- Mutable state of the run loop in src/main.js: the in-progress batch, the
three counters, the next batch index, plus (for stating properties) the list
of successfully delivered batches in delivery order and the log so far. -/
structure RunState : Type where
  batch : List JValue
  kept : ℕ
  scanned : ℕ
  skipped : ℕ
  batchIndex : ℕ
  delivered : List (ℕ × List JValue)
  logs : List LogEvent

/-- State at the start of the loop: empty batch, all counters zero. -/
def initState : RunState :=
  ⟨[], 0, 0, 0, 0, [], []⟩

/-- One line handed to the loop by readline: the raw text (for the blank
check) and the result of JSON.parse on it (none = parse throws). -/
structure RawLine : Type where
  text : JStr
  parsed : Option JValue

/-- Behaviour of the sink for the whole run: the response to attempt a of
delivering batch b is sink b a. -/
abbrev Sink := ℕ → ℕ → SinkResponse

/-- Body of "for await (const line of rl)" in src/main.js run(): skip blank
lines; on parse failure count skipped; on success count scanned, apply
isCompleteHotel (skipped on reject), else push and count kept; when the batch
reaches BATCH_SIZE deliver it, reset it, advance batchIndex, and print the
progress line when kept is a positive multiple of LOG_EVERY.  An upsert
throw aborts the loop; the error carries the state at the throw. -/
def stepLine (cfg : Config) (sink : Sink) (st : RunState) (l : RawLine) :
    Except (RunError × RunState) RunState :=
  if jsTrim l.text == [] then .ok st
  else
    match l.parsed with
    | none => .ok { st with skipped := st.skipped + 1 }
    | some obj =>
      let st1 := { st with scanned := st.scanned + 1 }
      if !isCompleteHotel cfg obj then
        .ok { st1 with skipped := st1.skipped + 1 }
      else
        let st2 := { st1 with batch := st1.batch ++ [obj], kept := st1.kept + 1 }
        if cfg.batchSize ≤ st2.batch.length then
          match upsertBatch cfg.upsertRetries cfg.upsertRetryMs
              (sink st2.batchIndex) with
          | .ok _ =>
            let st3 := { st2 with
              batch := [],
              batchIndex := st2.batchIndex + 1,
              delivered := st2.delivered ++ [(st2.batchIndex, st2.batch)] }
            if st3.kept % cfg.logEvery == 0 then
              .ok { st3 with
                logs := st3.logs ++ [.progress st3.kept st3.scanned st3.skipped] }
            else .ok st3
          | .err attempt status _ =>
            .error (.upsertFailed st2.batchIndex attempt status, st2)
        else .ok st2

/-- The whole line loop over the decompressed input. -/
def runLoop (cfg : Config) (sink : Sink) :
    List RawLine → RunState → Except (RunError × RunState) RunState
  | [], st => .ok st
  | l :: rest, st =>
    match stepLine cfg sink st l with
    | .ok st1 => runLoop cfg sink rest st1
    | .error e => .error e

/-- After-loop code of run(): flush the final partial batch if non-empty
("if (batch.length) await upsertBatch(...)"), then print the Done summary. -/
def finishRun (cfg : Config) (sink : Sink) (st : RunState) :
    Except (RunError × RunState) RunState :=
  if st.batch.length == 0 then
    .ok { st with logs := st.logs ++ [.summary st.kept st.scanned st.skipped] }
  else
    match upsertBatch cfg.upsertRetries cfg.upsertRetryMs (sink st.batchIndex) with
    | .ok _ =>
      .ok { st with
        delivered := st.delivered ++ [(st.batchIndex, st.batch)],
        logs := st.logs ++ [.summary st.kept st.scanned st.skipped] }
    | .err attempt status _ =>
      .error (.upsertFailed st.batchIndex attempt status, st)

/-- src/main.js looksLikeZstdMagic: at least 4 bytes and the zstd frame magic
28 B5 2F FD at the front. -/
def looksLikeZstdMagic (buf : List ℕ) : Bool :=
  4 ≤ buf.length && buf.getD 0 0 == 0x28 && buf.getD 1 0 == 0xB5 &&
    buf.getD 2 0 == 0x2F && buf.getD 3 0 == 0xFD

/-- Input to one run, as seen after the external transport and decompressor:
the first downloaded chunk (raw bytes, checked against the magic) and the
decompressed line stream. -/
structure DumpInput : Type where
  firstChunk : List ℕ
  lines : List RawLine

/-- The dump-processing part of run(): fail on an empty body; fail with the
format error (carrying a preview of at most 300 bytes) when the magic does
not match, before any line is processed; otherwise run the loop and the
final flush. -/
def runDump (cfg : Config) (sink : Sink) (input : DumpInput) :
    Except (RunError × RunState) RunState :=
  if input.firstChunk.length == 0 then .error (.emptyBody, initState)
  else if !looksLikeZstdMagic input.firstChunk then
    .error (.formatError (input.firstChunk.take 300), initState)
  else
    match runLoop cfg sink input.lines initState with
    | .ok st => finishRun cfg sink st
    | .error e => .error e

/-- Observable log of a whole process run, including the top-level
"run().catch(err => ...)" handler, which prints only the fatal error. -/
def runMain (cfg : Config) (sink : Sink) (input : DumpInput) : List LogEvent :=
  match runDump cfg sink input with
  | .ok st => st.logs
  | .error (e, st) => st.logs ++ [.fatal e]

/-- Whether a log contains the final Done summary line. -/
def hasSummary (logs : List LogEvent) : Bool :=
  logs.any (fun ev =>
    match ev with
    | .summary _ _ _ => true
    | _ => false)

/-- Number of lines that are non-blank yet fail JSON.parse: exactly the lines
on which the loop increments skipped without incrementing scanned. -/
def badLines (ls : List RawLine) : ℕ :=
  (ls.filter (fun l => !(jsTrim l.text == []) && l.parsed.isNone)).length

def resp503 : ℕ → SinkResponse := fun _ => ⟨503, none⟩

/-- Number of skipped-but-not-scanned increments a single line causes: 1 for
a non-blank line that fails JSON.parse, 0 otherwise. -/
def badOne (l : RawLine) : ℕ :=
  if !(jsTrim l.text == []) && l.parsed.isNone then 1 else 0

def okSink : Sink := fun _ _ => ⟨200, none⟩

def zstdMagicBytes : List ℕ := [0x28, 0xB5, 0x2F, 0xFD]

def c1input : DumpInput := ⟨zstdMagicBytes, [⟨"x".toList, none⟩]⟩

/-- Final state of the C1 counterexample run: one non-blank line that fails
JSON.parse. -/
def c1state : RunState :=
  match runDump mainDefaults okSink c1input with
  | .ok st => st
  | .error p => p.2

/-- Structural invariant of the batching loop: batchIndex counts delivered
batches, delivered indices are 0,1,2,..., every delivered batch holds exactly
batchSize records, kept splits into full batches plus the in-progress batch,
and the in-progress batch is strictly short of batchSize. -/
def batchInv (b : ℕ) (st : RunState) : Prop :=
  st.batchIndex = st.delivered.length ∧
  st.delivered.map Prod.fst = List.range st.delivered.length ∧
  (∀ p ∈ st.delivered, p.2.length = b) ∧
  st.kept = b * st.delivered.length + st.batch.length ∧
  st.batch.length < b

def c10cfg : Config := ⟨0, 0, false, false, false, 2, 3, 10, 5000⟩

def hTiny : JValue :=
  .obj [("id".toList, .str "h".toList), ("name".toList, .str "hh".toList)]

def tinyLine : RawLine := ⟨"r".toList, some hTiny⟩

def c10input : DumpInput := ⟨zstdMagicBytes, [tinyLine, tinyLine, tinyLine]⟩

def c10state : RunState :=
  match runDump c10cfg okSink c10input with
  | .ok st => st
  | .error p => p.2

def c4input : DumpInput := ⟨zstdMagicBytes, [tinyLine, tinyLine]⟩

def c4state : RunState :=
  match runDump c10cfg okSink c4input with
  | .ok st => st
  | .error p => p.2

/-- Sink whose every response is a non-retryable failure. -/
def nonRetryableSink (sink : Sink) : Prop :=
  ∀ b a, respOk (sink b a) = false ∧ (sink b a).status ∉ retryableStatuses

def badSink : Sink := fun _ _ => ⟨400, none⟩

def c3cfg : Config := ⟨0, 0, false, false, false, 1, 5, 1500, 5000⟩

def c3input : DumpInput := ⟨zstdMagicBytes, [tinyLine]⟩

def c3state : RunState :=
  match runDump c3cfg badSink c3input with
  | .ok st => st
  | .error p => p.2

def c5input : DumpInput :=
  ⟨"<html>err".toList.map Char.toNat, [tinyLine]⟩

/-- Record accepted by main.js isCompleteHotel under its default filters even
though its name has length 1 and star_rating is absent. -/
def cex6 : JValue := .obj [
  ("id".toList, .str "h1".toList),
  ("name".toList, .str "x".toList),
  ("images".toList, .arr [.str "http://img".toList]),
  ("address".toList, .str "1 Main St".toList),
  ("region".toList, .obj [("country_code".toList, .str "US".toList)]),
  ("latitude".toList, .num 10),
  ("longitude".toList, .num 20)]

/-- Record accepted by main.js isCompleteHotel with geo required although its
latitude 1000 lies far outside [-90, 90]. -/
def cex7 : JValue := .obj [
  ("id".toList, .str "h2".toList),
  ("name".toList, .str "Nice Hotel".toList),
  ("star_rating".toList, .num 4),
  ("images".toList, .arr [.str "http://img".toList]),
  ("address".toList, .str "1 Main St".toList),
  ("region".toList, .obj [("country_code".toList, .str "US".toList)]),
  ("latitude".toList, .num 1000),
  ("longitude".toList, .num 20)]

/-- part_002 default filters: MIN_IMAGES 1, MIN_STAR_RATING 3, REQUIRE_GEO
on (BATCH_SIZE 500, UPSERT_RETRIES 5, UPSERT_RETRY_MS 1500, LOG_EVERY 5000);
that variant has no address/country rule, so those flags are off. -/
def part002Defaults : Config :=
  ⟨1, 3, true, false, false, 500, 5, 1500, 5000⟩

def h6 : JValue := .obj [
  ("id".toList, .str "h3".toList),
  ("name".toList, .str "Grand Hotel".toList),
  ("star_rating".toList, .num 4),
  ("images".toList, .arr [.str "http://a.jpg".toList]),
  ("latitude".toList, .num 45),
  ("longitude".toList, .num 90)]

theorem upsertGo_all_retryable_fail (retries retryMs : ℕ)
    (responses : ℕ → SinkResponse)
    (hbad : ∀ a, 1 ≤ a → a ≤ retries →
      respOk (responses a) = false ∧ (responses a).status ∈ retryableStatuses) :
    ∀ fuel attempt sleeps, attempt + fuel = retries + 1 → 1 ≤ attempt →
      attempt ≤ retries →
      upsertGo retries retryMs responses fuel attempt sleeps =
        .err retries (responses retries).status
          (sleeps ++ (List.range' attempt (retries - attempt)).map
            (fun a => retryMs * a)) := by
  intro fuel
  induction fuel with
  | zero => intro attempt sleeps h1 h2 h3; omega
  | succ n ih =>
    intro attempt sleeps h1 h2 h3
    obtain ⟨hfail, hretry⟩ := hbad attempt h2 h3
    have hc : retryableStatuses.contains (responses attempt).status = true :=
      List.elem_eq_true_of_mem hretry
    unfold upsertGo
    simp only [hfail, hc, Bool.not_true, Bool.false_or, Bool.false_eq_true,
      if_false]
    by_cases heq : attempt = retries
    · subst heq
      simp
    · have hne : (attempt == retries) = false := by
        simp [heq]
      rw [hne]
      have hrange : List.range' attempt (retries - attempt) =
          attempt :: List.range' (attempt + 1) (retries - attempt - 1) := by
        have h4 : retries - attempt = (retries - attempt - 1) + 1 := by omega
        conv_lhs => rw [h4]
        rw [List.range'_succ]
      simp only [Bool.false_eq_true, if_false]
      rw [ih (attempt + 1) (sleeps ++ [retryMs * attempt]) (by omega) (by omega)
        (by omega), hrange]
      have h5 : retries - (attempt + 1) = retries - attempt - 1 := by omega
      rw [h5]
      simp

/-- C2: a batch whose delivery keeps failing with a retryable status is
retried with linear backoff and becomes fatal after max_retries attempts. -/
theorem retryable_linear_backoff_exhausts (retries retryMs : ℕ)
    (responses : ℕ → SinkResponse) (hr : 1 ≤ retries)
    (hbad : ∀ a, 1 ≤ a → a ≤ retries →
      respOk (responses a) = false ∧ (responses a).status ∈ retryableStatuses) :
    upsertBatch retries retryMs responses =
      .err retries (responses retries).status
        ((List.range' 1 (retries - 1)).map (fun a => retryMs * a)) := by
  have h := upsertGo_all_retryable_fail retries retryMs responses hbad retries 1
    [] (by omega) (by omega) hr
  unfold upsertBatch
  simpa using h

theorem retryable_linear_backoff_exhausts_witness :
    upsertBatch 3 10 resp503 =
      .err 3 (resp503 3).status
        ((List.range' 1 (3 - 1)).map (fun a => 10 * a)) :=
  retryable_linear_backoff_exhausts 3 10 resp503 (by decide)
    (fun a _ _ => ⟨rfl, by show (503 : ℕ) ∈ retryableStatuses; decide⟩)

/-- Non-retryable first response: upsertBatch throws on attempt 1 with no
sleeps. -/
theorem upsertBatch_nonretryable_first (retries retryMs : ℕ)
    (responses : ℕ → SinkResponse) (hr : 1 ≤ retries)
    (hfail : respOk (responses 1) = false)
    (hnr : (responses 1).status ∉ retryableStatuses) :
    upsertBatch retries retryMs responses = .err 1 (responses 1).status [] := by
  unfold upsertBatch
  obtain ⟨fuel, rfl⟩ : ∃ n, retries = n + 1 := ⟨retries - 1, by omega⟩
  unfold upsertGo
  simp [hfail, List.elem_eq_mem, hnr]

theorem stepLine_counts (cfg : Config) (sink : Sink) (st : RunState)
    (l : RawLine) (st1 : RunState) (h : stepLine cfg sink st l = .ok st1) :
    st1.kept + st1.skipped + st.scanned =
      st.kept + st.skipped + st1.scanned + badOne l := by
  simp only [stepLine] at h
  unfold badOne
  split at h
  · rename_i hblank
    injection h with h
    subst h
    simp [hblank]
  · rename_i hblank
    split at h
    · rename_i hparse
      injection h with h
      subst h
      simp [hblank, hparse]
      omega
    · rename_i obj hparse
      split at h
      · rename_i hrej
        injection h with h
        subst h
        simp [hblank, hparse]
        omega
      · rename_i hacc
        split at h
        · rename_i hfull
          split at h
          · rename_i up hup
            split at h
            · rename_i hlog
              injection h with h
              subst h
              simp [hblank, hparse]
              omega
            · rename_i hlog
              injection h with h
              subst h
              simp [hblank, hparse]
              omega
          · rename_i a b c hup
            exact absurd h (by simp)
        · rename_i hfull
          injection h with h
          subst h
          simp [hblank, hparse]
          omega

theorem badLines_cons (l : RawLine) (rest : List RawLine) :
    badLines (l :: rest) = badOne l + badLines rest := by
  unfold badLines badOne
  rw [List.filter_cons]
  split
  · rename_i hc
    simp [hc]
    omega
  · rename_i hc
    simp at hc
    simp [hc]

theorem runLoop_counts (cfg : Config) (sink : Sink) :
    ∀ (ls : List RawLine) (st st1 : RunState),
      runLoop cfg sink ls st = .ok st1 →
      st1.kept + st1.skipped + st.scanned =
        st.kept + st.skipped + st1.scanned + badLines ls := by
  intro ls
  induction ls with
  | nil =>
    intro st st1 h
    simp only [runLoop] at h
    injection h with h
    subst h
    simp [badLines]
  | cons l rest ih =>
    intro st st1 h
    simp only [runLoop] at h
    split at h
    · rename_i st2 hstep
      have h1 := stepLine_counts cfg sink st l st2 hstep
      have h2 := ih st2 st1 h
      rw [badLines_cons]
      omega
    · exact absurd h (by simp)

theorem finishRun_counts (cfg : Config) (sink : Sink) (st st1 : RunState)
    (h : finishRun cfg sink st = .ok st1) :
    st1.kept = st.kept ∧ st1.scanned = st.scanned ∧ st1.skipped = st.skipped := by
  unfold finishRun at h
  split at h
  · injection h with h
    subst h
    simp
  · split at h
    · injection h with h
      subst h
      simp
    · exact absurd h (by simp)

/-- C1 amended: at successful run completion, kept + skipped exceeds scanned
by exactly the number of non-blank lines that failed JSON decode (skipped is
incremented on decode failures that scanned does not count). -/
theorem counters_balance (cfg : Config) (sink : Sink) (input : DumpInput)
    (st : RunState) (h : runDump cfg sink input = .ok st) :
    st.kept + st.skipped = st.scanned + badLines input.lines := by
  unfold runDump at h
  split at h
  · exact absurd h (by simp)
  · split at h
    · exact absurd h (by simp)
    · split at h
      · rename_i st2 hloop
        have h1 := runLoop_counts cfg sink input.lines initState st2 hloop
        have h2 := finishRun_counts cfg sink st2 st h
        simp [initState] at h1
        omega
      · exact absurd h (by simp)

/-- C1 counterexample: a completed run over a single malformed line ends with
scanned = 0, kept = 0, skipped = 1, violating scanned == kept + skipped. -/
theorem counters_balance_cex :
    runDump mainDefaults okSink c1input = .ok c1state ∧
    c1state.scanned = 0 ∧ c1state.kept = 0 ∧ c1state.skipped = 1 ∧
    c1state.scanned ≠ c1state.kept + c1state.skipped :=
  ⟨rfl, rfl, rfl, rfl, by decide⟩

theorem counters_balance_witness :
    c1state.kept + c1state.skipped = c1state.scanned + badLines c1input.lines :=
  counters_balance mainDefaults okSink c1input c1state rfl

theorem stepLine_batchInv (cfg : Config) (sink : Sink) (st : RunState)
    (l : RawLine) (st1 : RunState) (hB : 1 ≤ cfg.batchSize)
    (hinv : batchInv cfg.batchSize st) (h : stepLine cfg sink st l = .ok st1) :
    batchInv cfg.batchSize st1 := by
  obtain ⟨h1, h2, h3, h4, h5⟩ := hinv
  simp only [stepLine] at h
  split at h
  · injection h with h
    subst h
    exact ⟨h1, h2, h3, h4, h5⟩
  · split at h
    · injection h with h
      subst h
      exact ⟨h1, h2, h3, h4, h5⟩
    · rename_i obj hparse
      split at h
      · injection h with h
        subst h
        exact ⟨h1, h2, h3, h4, h5⟩
      · split at h
        · rename_i hfull
          split at h
          · rename_i up hup
            have hlen : (st.batch ++ [obj]).length = cfg.batchSize := by
              simp at hfull ⊢
              omega
            have hnew : ∀ p ∈ st.delivered ++ [(st.batchIndex, st.batch ++ [obj])],
                p.2.length = cfg.batchSize := by
              intro p hp
              rcases List.mem_append.1 hp with hp | hp
              · exact h3 p hp
              · simp at hp
                rw [hp]
                exact hlen
            have hidx : (st.delivered ++ [(st.batchIndex, st.batch ++ [obj])]).map
                Prod.fst = List.range
                  (st.delivered ++ [(st.batchIndex, st.batch ++ [obj])]).length := by
              simp [h2, h1, List.range_succ]
            have hkept : st.kept + 1 = cfg.batchSize *
                (st.delivered ++ [(st.batchIndex, st.batch ++ [obj])]).length := by
              simp at hfull ⊢
              ring_nf
              omega
            split at h
            · injection h with h
              subst h
              refine ⟨by simp [h1], by simpa using hidx, by simpa using hnew, ?_, ?_⟩
              · simpa using hkept
              · simpa using hB
            · injection h with h
              subst h
              refine ⟨by simp [h1], by simpa using hidx, by simpa using hnew, ?_, ?_⟩
              · simpa using hkept
              · simpa using hB
          · exact absurd h (by simp)
        · rename_i hfull
          injection h with h
          subst h
          refine ⟨h1, h2, h3, ?_, ?_⟩
          · simp
            omega
          · simp at hfull ⊢
            omega

theorem runLoop_batchInv (cfg : Config) (sink : Sink) (hB : 1 ≤ cfg.batchSize) :
    ∀ (ls : List RawLine) (st st1 : RunState), batchInv cfg.batchSize st →
      runLoop cfg sink ls st = .ok st1 → batchInv cfg.batchSize st1 := by
  intro ls
  induction ls with
  | nil =>
    intro st st1 hinv h
    simp only [runLoop] at h
    injection h with h
    subst h
    exact hinv
  | cons l rest ih =>
    intro st st1 hinv h
    simp only [runLoop] at h
    split at h
    · rename_i st2 hstep
      exact ih st2 st1 (stepLine_batchInv cfg sink st l st2 hB hinv hstep) h
    · exact absurd h (by simp)

theorem initState_batchInv (b : ℕ) (hb : 1 ≤ b) : batchInv b initState := by
  refine ⟨rfl, rfl, ?_, rfl, ?_⟩
  · intro p hp
    simp [initState] at hp
  · simpa [initState] using hb

/-- Behaviour of the final flush on delivered batches and kept. -/
theorem finishRun_delivered (cfg : Config) (sink : Sink) (st st1 : RunState)
    (h : finishRun cfg sink st = .ok st1) :
    st1.kept = st.kept ∧
    ((st.batch.length = 0 ∧ st1.delivered = st.delivered) ∨
     (0 < st.batch.length ∧
       st1.delivered = st.delivered ++ [(st.batchIndex, st.batch)])) := by
  unfold finishRun at h
  split at h
  · rename_i hz
    injection h with h
    subst h
    simp at hz
    exact ⟨rfl, Or.inl ⟨by simp [hz], rfl⟩⟩
  · rename_i hz
    split at h
    · injection h with h
      subst h
      simp at hz
      have : st.batch.length ≠ 0 := by
        simpa using fun hnil => hz (by simp [hnil])
      exact ⟨rfl, Or.inr ⟨by omega, rfl⟩⟩
    · exact absurd h (by simp)

theorem runDump_ok_split (cfg : Config) (sink : Sink) (input : DumpInput)
    (st : RunState) (h : runDump cfg sink input = .ok st) :
    ∃ st2, runLoop cfg sink input.lines initState = .ok st2 ∧
      finishRun cfg sink st2 = .ok st := by
  unfold runDump at h
  split at h
  · exact absurd h (by simp)
  · split at h
    · exact absurd h (by simp)
    · split at h
      · rename_i st2 hloop
        exact ⟨st2, hloop, h⟩
      · exact absurd h (by simp)

theorem sizes_replicate (b : ℕ) (l : List (ℕ × List JValue))
    (h : ∀ p ∈ l, p.2.length = b) :
    l.map (fun p => p.2.length) = List.replicate l.length b := by
  refine List.eq_replicate_iff.2 ⟨by simp, ?_⟩
  intro x hx
  obtain ⟨p, hp, rfl⟩ := List.mem_map.1 hx
  exact h p hp

/-- C10: in a completed run with at least one accepted record, the delivered
batch sizes are some number of full batches followed by a final batch of
between 1 and batchSize records, and kept is exactly their sum. -/
theorem delivered_shape (cfg : Config) (sink : Sink) (input : DumpInput)
    (st : RunState) (hB : 1 ≤ cfg.batchSize)
    (h : runDump cfg sink input = .ok st) (hk : 1 ≤ st.kept) :
    ∃ full lastSize,
      st.delivered.map (fun p => p.2.length) =
        List.replicate full cfg.batchSize ++ [lastSize] ∧
      1 ≤ lastSize ∧ lastSize ≤ cfg.batchSize ∧
      st.kept = cfg.batchSize * full + lastSize := by
  obtain ⟨st2, hloop, hfin⟩ := runDump_ok_split cfg sink input st h
  obtain ⟨i1, i2, i3, i4, i5⟩ := runLoop_batchInv cfg sink hB input.lines
    initState st2 (initState_batchInv cfg.batchSize hB) hloop
  obtain ⟨hkeq, hdel⟩ := finishRun_delivered cfg sink st2 st hfin
  rcases hdel with ⟨hz, hdeq⟩ | ⟨hpos, hdeq⟩
  · -- final batch empty: all delivered batches are full
    have hd1 : 1 ≤ st2.delivered.length := by
      by_contra hc
      have : st2.delivered.length = 0 := by omega
      rw [hkeq, i4, this, hz] at hk
      simp at hk
    obtain ⟨m, hm⟩ : ∃ m, st2.delivered.length = m + 1 :=
      ⟨st2.delivered.length - 1, by omega⟩
    refine ⟨m, cfg.batchSize, ?_, hB, le_refl _, ?_⟩
    · rw [hdeq, sizes_replicate cfg.batchSize st2.delivered i3, hm,
        List.replicate_succ']
    · rw [hkeq, i4, hz, hm]
      simp [Nat.mul_succ]
  · -- final short batch delivered
    refine ⟨st2.delivered.length, st2.batch.length, ?_, hpos, by omega, ?_⟩
    · rw [hdeq]
      simp [sizes_replicate cfg.batchSize st2.delivered i3]
    · rw [hkeq, i4]

theorem delivered_shape_witness :
    ∃ full lastSize,
      c10state.delivered.map (fun p => p.2.length) =
        List.replicate full c10cfg.batchSize ++ [lastSize] ∧
      1 ≤ lastSize ∧ lastSize ≤ c10cfg.batchSize ∧
      c10state.kept = c10cfg.batchSize * full + lastSize :=
  delivered_shape c10cfg okSink c10input c10state (by decide) rfl (by decide)

/-- C4: a completed run with exactly batchSize accepted records delivers one
full batch with index 0 and no empty trailing batch; with batchSize + 1
accepted records it delivers two batches of sizes batchSize and 1 at indices
0 and 1. -/
theorem batch_boundary (cfg : Config) (sink : Sink) (input : DumpInput)
    (st : RunState) (hB : 1 ≤ cfg.batchSize)
    (h : runDump cfg sink input = .ok st) :
    (st.kept = cfg.batchSize →
      st.delivered.map (fun p => (p.1, p.2.length)) = [(0, cfg.batchSize)]) ∧
    (st.kept = cfg.batchSize + 1 →
      st.delivered.map (fun p => (p.1, p.2.length)) =
        [(0, cfg.batchSize), (1, 1)]) := by
  obtain ⟨st2, hloop, hfin⟩ := runDump_ok_split cfg sink input st h
  obtain ⟨i1, i2, i3, i4, i5⟩ := runLoop_batchInv cfg sink hB input.lines
    initState st2 (initState_batchInv cfg.batchSize hB) hloop
  obtain ⟨hkeq, hdel⟩ := finishRun_delivered cfg sink st2 st hfin
  constructor
  · intro hkk
    rcases hdel with ⟨hz, hdeq⟩ | ⟨hpos, hdeq⟩
    · -- no trailing batch: batchSize * d = batchSize forces d = 1
      have hd : st2.delivered.length = 1 := by
        have hbd : cfg.batchSize * st2.delivered.length = cfg.batchSize * 1 := by
          rw [Nat.mul_one]
          omega
        exact Nat.eq_of_mul_eq_mul_left (by omega) hbd
      obtain ⟨p, hp⟩ := List.length_eq_one.1 hd
      have hfst : p.1 = 0 := by
        have h7 := i2
        rw [hp] at h7
        have h8 : List.range ([p].length) = [0] := rfl
        rw [h8] at h7
        simpa using h7
      have hsize : p.2.length = cfg.batchSize := i3 p (by simp [hp])
      rw [hdeq, hp]
      simp [hfst, hsize]
    · -- trailing batch impossible when kept is an exact multiple
      exfalso
      rcases Nat.eq_zero_or_pos st2.delivered.length with hd0 | hd1
      · rw [hkeq, i4, hd0] at hkk
        simp at hkk
        omega
      · obtain ⟨m, hm⟩ : ∃ m, st2.delivered.length = m + 1 :=
          ⟨st2.delivered.length - 1, by omega⟩
        rw [hkeq, i4, hm, Nat.mul_succ] at hkk
        have hx : 0 ≤ cfg.batchSize * m := Nat.zero_le _
        generalize cfg.batchSize * m = x at hkk
        omega
  · intro hkk
    rcases hdel with ⟨hz, hdeq⟩ | ⟨hpos, hdeq⟩
    · -- both batches full: batchSize * d = batchSize + 1 forces B = 1, d = 2
      have hbd : cfg.batchSize * st2.delivered.length = cfg.batchSize + 1 := by
        omega
      have hd1 : 1 ≤ st2.delivered.length := by
        rcases Nat.eq_zero_or_pos st2.delivered.length with hd0 | hd1
        · rw [hd0, Nat.mul_zero] at hbd
          omega
        · exact hd1
      obtain ⟨m, hm⟩ : ∃ m, st2.delivered.length = m + 1 :=
        ⟨st2.delivered.length - 1, by omega⟩
      have hkey : cfg.batchSize * m = 1 := by
        rw [hm, Nat.mul_succ] at hbd
        generalize cfg.batchSize * m = x at hbd ⊢
        omega
      have hB1 : cfg.batchSize = 1 := Nat.eq_one_of_mul_eq_one_right hkey
      have hm1 : m = 1 := by
        rw [hB1] at hkey
        omega
      have hd2 : st2.delivered.length = 2 := by omega
      obtain ⟨p, q, hpq⟩ := List.length_eq_two.1 hd2
      have hfst : p.1 = 0 ∧ q.1 = 1 := by
        have h7 := i2
        rw [hpq] at h7
        have h8 : List.range ([p, q].length) = [0, 1] := rfl
        rw [h8] at h7
        simpa using h7
      have hps : p.2.length = cfg.batchSize := i3 p (by simp [hpq])
      have hqs : q.2.length = cfg.batchSize := i3 q (by simp [hpq])
      rw [hdeq, hpq]
      simp [hfst.1, hfst.2, hps, hqs, hB1]
    · -- one full batch then the short one of size 1
      have hbd : cfg.batchSize * st2.delivered.length + st2.batch.length =
          cfg.batchSize + 1 := by omega
      have hdlt : st2.delivered.length < 2 := by
        by_contra hc
        push_neg at hc
        obtain ⟨m, hm⟩ : ∃ m, st2.delivered.length = m + 2 :=
          ⟨st2.delivered.length - 2, by omega⟩
        rw [hm] at hbd
        have hexp : cfg.batchSize * (m + 2) =
            cfg.batchSize * m + 2 * cfg.batchSize := by ring
        rw [hexp] at hbd
        generalize cfg.batchSize * m = x at hbd
        omega
      have hdl : st2.delivered.length = 1 := by
        rcases Nat.eq_zero_or_pos st2.delivered.length with h0 | h1
        · rw [h0] at hbd
          simp at hbd
          omega
        · omega
      have hd1 : st2.delivered.length = 1 ∧ st2.batch.length = 1 := by
        rw [hdl, Nat.mul_one] at hbd
        exact ⟨hdl, by omega⟩
      obtain ⟨p, hp⟩ := List.length_eq_one.1 hd1.1
      have hfst : p.1 = 0 := by
        have h7 := i2
        rw [hp] at h7
        have h8 : List.range ([p].length) = [0] := rfl
        rw [h8] at h7
        simpa using h7
      have hsize : p.2.length = cfg.batchSize := i3 p (by simp [hp])
      rw [hdeq, hp]
      simp [hfst, hsize, i1, hp, hd1.1, hd1.2]

theorem batch_boundary_witness :
    c4state.delivered.map (fun p => (p.1, p.2.length)) = [(0, c10cfg.batchSize)] ∧
    c10state.delivered.map (fun p => (p.1, p.2.length)) =
      [(0, c10cfg.batchSize), (1, 1)] :=
  ⟨(batch_boundary c10cfg okSink c4input c4state (by decide) rfl).1 rfl,
   (batch_boundary c10cfg okSink c10input c10state (by decide) rfl).2 rfl⟩

theorem stepLine_nonretryable (cfg : Config) (sink : Sink) (st : RunState)
    (l : RawLine) (hr : 1 ≤ cfg.upsertRetries) (hbad : nonRetryableSink sink) :
    (∀ st1, stepLine cfg sink st l = .ok st1 → st1.delivered = st.delivered) ∧
    (∀ e st2, stepLine cfg sink st l = .error (e, st2) →
      st2.delivered = st.delivered ∧
      e = .upsertFailed st2.batchIndex 1 (sink st2.batchIndex 1).status) := by
  have hup : ∀ b, upsertBatch cfg.upsertRetries cfg.upsertRetryMs (sink b) =
      .err 1 (sink b 1).status [] := fun b =>
    upsertBatch_nonretryable_first cfg.upsertRetries cfg.upsertRetryMs (sink b)
      hr (hbad b 1).1 (hbad b 1).2
  constructor
  · intro st1 h
    simp only [stepLine] at h
    split at h
    · injection h with h
      subst h
      rfl
    · split at h
      · injection h with h
        subst h
        rfl
      · rename_i obj hparse
        split at h
        · injection h with h
          subst h
          rfl
        · split at h
          · rename_i hfull
            rw [hup] at h
            simp at h
          · injection h with h
            subst h
            rfl
  · intro e st2 h
    simp only [stepLine] at h
    split at h
    · exact absurd h (by simp)
    · split at h
      · exact absurd h (by simp)
      · rename_i obj hparse
        split at h
        · exact absurd h (by simp)
        · split at h
          · rename_i hfull
            rw [hup] at h
            simp only [] at h
            injection h with h
            rw [Prod.mk.injEq] at h
            obtain ⟨he, hst⟩ := h
            subst hst
            exact ⟨rfl, he.symm⟩
          · exact absurd h (by simp)

theorem runLoop_nonretryable (cfg : Config) (sink : Sink)
    (hr : 1 ≤ cfg.upsertRetries) (hbad : nonRetryableSink sink) :
    ∀ (ls : List RawLine) (st : RunState),
      (∀ st1, runLoop cfg sink ls st = .ok st1 →
        st1.delivered = st.delivered) ∧
      (∀ e st2, runLoop cfg sink ls st = .error (e, st2) →
        st2.delivered = st.delivered ∧
        e = .upsertFailed st2.batchIndex 1 (sink st2.batchIndex 1).status) := by
  intro ls
  induction ls with
  | nil =>
    intro st
    constructor
    · intro st1 h
      simp only [runLoop] at h
      injection h with h
      subst h
      rfl
    · intro e st2 h
      simp only [runLoop] at h
      exact absurd h (by simp)
  | cons l rest ih =>
    intro st
    constructor
    · intro st1 h
      simp only [runLoop] at h
      split at h
      · rename_i stm hstep
        rw [(ih stm).1 st1 h,
          (stepLine_nonretryable cfg sink st l hr hbad).1 stm hstep]
      · exact absurd h (by simp)
    · intro e st2 h
      simp only [runLoop] at h
      split at h
      · rename_i stm hstep
        obtain ⟨h1, h2⟩ := (ih stm).2 e st2 h
        exact ⟨h1.trans
          ((stepLine_nonretryable cfg sink st l hr hbad).1 stm hstep), h2⟩
      · rename_i p hstep
        injection h with h
        subst h
        exact (stepLine_nonretryable cfg sink st l hr hbad).2 e st2 hstep

/-- C3: a non-retryable sink failure (status outside the retryable set, or an
HTTP-ok body reporting success false) aborts on the first attempt with no
backoff sleeps, and the run delivers no batch at all: a success leaves
delivered empty and a failure ends fatally with an attempt-1 upsert error and
delivered still empty. -/
theorem nonretryable_fails_fast (cfg : Config) (sink : Sink)
    (input : DumpInput) (hr : 1 ≤ cfg.upsertRetries)
    (hbad : nonRetryableSink sink)
    (hlen : input.firstChunk.length ≠ 0)
    (hmagic : looksLikeZstdMagic input.firstChunk = true) :
    (∀ b, upsertBatch cfg.upsertRetries cfg.upsertRetryMs (sink b) =
      .err 1 (sink b 1).status []) ∧
    (∀ st, runDump cfg sink input = .ok st → st.delivered = []) ∧
    (∀ e st, runDump cfg sink input = .error (e, st) →
      st.delivered = [] ∧
      e = .upsertFailed st.batchIndex 1 (sink st.batchIndex 1).status) := by
  have hup : ∀ b, upsertBatch cfg.upsertRetries cfg.upsertRetryMs (sink b) =
      .err 1 (sink b 1).status [] := fun b =>
    upsertBatch_nonretryable_first cfg.upsertRetries cfg.upsertRetryMs (sink b)
      hr (hbad b 1).1 (hbad b 1).2
  refine ⟨hup, ?_, ?_⟩
  · intro st h
    obtain ⟨st2, hloop, hfin⟩ := runDump_ok_split cfg sink input st h
    have hdel2 : st2.delivered = [] :=
      (runLoop_nonretryable cfg sink hr hbad input.lines initState).1 st2 hloop
    unfold finishRun at hfin
    split at hfin
    · injection hfin with hfin
      subst hfin
      exact hdel2
    · rw [hup] at hfin
      simp only [] at hfin
      exact absurd hfin (by simp)
  · intro e st h
    unfold runDump at h
    split at h
    · rename_i hcond
      simp at hcond
      exact absurd (by simp [hcond]) hlen
    · split at h
      · rename_i hcond
        rw [hmagic] at hcond
        simp at hcond
      · split at h
        · rename_i st2 hloop
          have hdel2 : st2.delivered = [] :=
            (runLoop_nonretryable cfg sink hr hbad input.lines initState).1
              st2 hloop
          unfold finishRun at h
          split at h
          · exact absurd h (by simp)
          · rw [hup] at h
            simp only [] at h
            injection h with h
            rw [Prod.mk.injEq] at h
            obtain ⟨he, hst⟩ := h
            subst hst
            exact ⟨hdel2, he.symm⟩
        · rename_i p hloop
          injection h with h
          rw [Prod.mk.injEq] at h
          obtain ⟨he, hst⟩ := h
          subst hst
          subst he
          obtain ⟨h1, h2⟩ :=
            (runLoop_nonretryable cfg sink hr hbad input.lines initState).2
              p.1 p.2 (by rw [hloop])
          exact ⟨by simpa [initState] using h1, h2⟩

theorem nonretryable_fails_fast_witness :
    upsertBatch c3cfg.upsertRetries c3cfg.upsertRetryMs (badSink 0) =
      .err 1 (badSink 0 1).status [] ∧
    c3state.delivered = [] ∧
    RunError.upsertFailed 0 1 400 =
      .upsertFailed c3state.batchIndex 1 (badSink c3state.batchIndex 1).status :=
  have H := nonretryable_fails_fast c3cfg badSink c3input (by decide)
    (fun b a => ⟨rfl, by show (400 : ℕ) ∉ retryableStatuses; decide⟩)
    (by decide) (by decide)
  ⟨H.1 0, (H.2.2 (.upsertFailed 0 1 400) c3state rfl).1,
    (H.2.2 (.upsertFailed 0 1 400) c3state rfl).2⟩

theorem stepLine_noSummary (cfg : Config) (sink : Sink) (st : RunState)
    (l : RawLine) :
    (∀ st1, stepLine cfg sink st l = .ok st1 →
      hasSummary st1.logs = hasSummary st.logs) ∧
    (∀ e st2, stepLine cfg sink st l = .error (e, st2) →
      hasSummary st2.logs = hasSummary st.logs) := by
  constructor
  · intro st1 h
    simp only [stepLine] at h
    split at h
    · injection h with h
      subst h
      rfl
    · split at h
      · injection h with h
        subst h
        rfl
      · split at h
        · injection h with h
          subst h
          rfl
        · split at h
          · split at h
            · split at h
              · injection h with h
                subst h
                simp [hasSummary, List.any_append]
              · injection h with h
                subst h
                rfl
            · exact absurd h (by simp)
          · injection h with h
            subst h
            rfl
  · intro e st2 h
    simp only [stepLine] at h
    split at h
    · exact absurd h (by simp)
    · split at h
      · exact absurd h (by simp)
      · split at h
        · exact absurd h (by simp)
        · split at h
          · split at h
            · split at h
              · exact absurd h (by simp)
              · exact absurd h (by simp)
            · injection h with h
              rw [Prod.mk.injEq] at h
              obtain ⟨he, hst⟩ := h
              subst hst
              rfl
          · exact absurd h (by simp)

theorem runLoop_noSummary (cfg : Config) (sink : Sink) :
    ∀ (ls : List RawLine) (st : RunState),
      (∀ st1, runLoop cfg sink ls st = .ok st1 →
        hasSummary st1.logs = hasSummary st.logs) ∧
      (∀ e st2, runLoop cfg sink ls st = .error (e, st2) →
        hasSummary st2.logs = hasSummary st.logs) := by
  intro ls
  induction ls with
  | nil =>
    intro st
    constructor
    · intro st1 h
      simp only [runLoop] at h
      injection h with h
      subst h
      rfl
    · intro e st2 h
      simp only [runLoop] at h
      exact absurd h (by simp)
  | cons l rest ih =>
    intro st
    constructor
    · intro st1 h
      simp only [runLoop] at h
      split at h
      · rename_i stm hstep
        rw [(ih stm).1 st1 h,
          (stepLine_noSummary cfg sink st l).1 stm hstep]
      · exact absurd h (by simp)
    · intro e st2 h
      simp only [runLoop] at h
      split at h
      · rename_i stm hstep
        rw [(ih stm).2 e st2 h,
          (stepLine_noSummary cfg sink st l).1 stm hstep]
      · rename_i p hstep
        injection h with h
        subst h
        exact (stepLine_noSummary cfg sink st l).2 e st2 hstep

/-- C9 amended: a fatally terminated run prints the fatal error after the
logs accumulated so far, and those logs never contain the Done summary line
with the final counters — the summary is printed only on the success path. -/
theorem fatal_reports_no_summary (cfg : Config) (sink : Sink)
    (input : DumpInput) (e : RunError) (st : RunState)
    (h : runDump cfg sink input = .error (e, st)) :
    runMain cfg sink input = st.logs ++ [.fatal e] ∧
    hasSummary st.logs = false := by
  constructor
  · unfold runMain
    rw [h]
  · unfold runDump at h
    split at h
    · injection h with h
      rw [Prod.mk.injEq] at h
      obtain ⟨he, hst⟩ := h
      subst hst
      rfl
    · split at h
      · injection h with h
        rw [Prod.mk.injEq] at h
        obtain ⟨he, hst⟩ := h
        subst hst
        rfl
      · split at h
        · rename_i st2 hloop
          have h2 : hasSummary st2.logs = hasSummary initState.logs :=
            (runLoop_noSummary cfg sink input.lines initState).1 st2 hloop
          unfold finishRun at h
          split at h
          · exact absurd h (by simp)
          · split at h
            · exact absurd h (by simp)
            · injection h with h
              rw [Prod.mk.injEq] at h
              obtain ⟨he, hst⟩ := h
              subst hst
              exact h2
        · rename_i p hloop
          injection h with h
          subst h
          rw [(runLoop_noSummary cfg sink input.lines initState).2 e st (by
            rw [hloop])]
          rfl

/-- C5: when the first downloaded chunk is non-empty and does not start with
the zstd magic 28 B5 2F FD, the run fails immediately with the format error
carrying a preview of at most 300 bytes, before any line is processed or any
batch is built or delivered. -/
theorem magic_mismatch_fails_fast (cfg : Config) (sink : Sink)
    (input : DumpInput) (hne : input.firstChunk.length ≠ 0)
    (hmagic : looksLikeZstdMagic input.firstChunk = false) :
    runDump cfg sink input =
      .error (.formatError (input.firstChunk.take 300), initState) ∧
    initState.delivered = [] ∧ initState.kept = 0 := by
  refine ⟨?_, rfl, rfl⟩
  unfold runDump
  rw [if_neg, if_pos]
  · rw [hmagic]
    rfl
  · simp [hne]

theorem magic_mismatch_fails_fast_witness :
    runDump mainDefaults okSink c5input =
      .error (.formatError (c5input.firstChunk.take 300), initState) ∧
    initState.delivered = [] ∧ initState.kept = 0 :=
  magic_mismatch_fails_fast mainDefaults okSink c5input (by decide) (by decide)

theorem idOk_eq (h : JValue) :
    (match jget h "id".toList with
     | some (.str s) => !(s == [])
     | _ => false) = idOk h := rfl

theorem nameOk_eq (h : JValue) :
    (match jget h "name".toList with
     | some (.str s) => !(s == []) && !(jsTrim s == [])
     | _ => false) = nameOk h := rfl

theorem star_reject_eq (cfg : Config) (h : JValue) :
    (match starRatingValue h with
     | some sr => decide (sr < cfg.minStarRating)
     | none => false) = !starOk cfg h := by
  unfold starOk
  rcases starRatingValue h with _ | sr <;> simp

theorem addr_reject_eq (cfg : Config) (h : JValue) :
    (cfg.requireAddress &&
      !(match jget h "address".toList with
        | some (.str s) => !(s == []) && !(jsTrim s == [])
        | _ => false)) = !addressOk cfg h := by
  unfold addressOk
  cases cfg.requireAddress <;> simp

theorem country_reject_eq (cfg : Config) (h : JValue) :
    (cfg.requireCountry && !(hasCountry h)) = !countryOk cfg h := by
  unfold countryOk
  cases cfg.requireCountry <;> simp

theorem geo_reject_eq (cfg : Config) (h : JValue) :
    (cfg.requireGeo && !(hasGeo h)) = !geoOk cfg h := by
  unfold geoOk
  cases cfg.requireGeo <;> simp

/-- C8: the completeness policy is a total Boolean predicate — on every
decoded JSON value it returns a definite accept or reject — and it is the
pointwise conjunction of its independent per-field sub-checks, so an absent
or wrong-typed field can only fail its own sub-check. -/
theorem policy_total_and_modular (cfg : Config) (h : JValue) :
    (isCompleteHotel cfg h = true ∨ isCompleteHotel cfg h = false) ∧
    isCompleteHotel cfg h =
      (objectGuard h && idOk h && nameOk h && starOk cfg h &&
        hasAtLeastNImages h cfg.minImages && addressOk cfg h &&
        countryOk cfg h && geoOk cfg h) := by
  constructor
  · rcases Bool.dichotomy (isCompleteHotel cfg h) with hb | hb
    · exact Or.inr hb
    · exact Or.inl hb
  · unfold isCompleteHotel
    rw [idOk_eq, nameOk_eq, star_reject_eq, addr_reject_eq, country_reject_eq,
      geo_reject_eq]
    cases objectGuard h <;> cases idOk h <;> cases nameOk h <;>
      cases starOk cfg h <;> cases hasAtLeastNImages h cfg.minImages <;>
      cases addressOk cfg h <;> cases countryOk cfg h <;> cases geoOk cfg h <;>
      rfl

theorem fatal_reports_no_summary_cex :
    runMain c3cfg badSink c3input = [.fatal (.upsertFailed 0 1 400)] ∧
    hasSummary (runMain c3cfg badSink c3input) = false ∧
    c3state.kept = 1 ∧ c3state.scanned = 1 ∧ c3state.skipped = 0 :=
  ⟨rfl, rfl, rfl, rfl, rfl⟩

theorem fatal_reports_no_summary_witness :
    runMain c3cfg badSink c3input =
      c3state.logs ++ [.fatal (.upsertFailed 0 1 400)] ∧
    hasSummary c3state.logs = false :=
  fatal_reports_no_summary c3cfg badSink c3input (.upsertFailed 0 1 400)
    c3state rfl

theorem default_policy_rules_cex :
    isCompleteHotel mainDefaults cex6 = true ∧
    (jget cex6 "star_rating".toList).isNone = true ∧
    (match jget cex6 "name".toList with
     | some (.str s) => s.length
     | _ => 0) = 1 := by decide

theorem geo_range_cex :
    mainDefaults.requireGeo = true ∧
    isCompleteHotel mainDefaults cex7 = true ∧
    toNumber (jget cex7 "latitude".toList) = some 1000 ∧
    ¬((1000 : ℚ) ≤ 90) := by decide

/-- C6 amended: the part_002 variant isValidHotel accepts a decoded record
only if its id is a string with non-blank trim, its name is a string whose
trim has length at least 2, and its star_rating coerces to a finite number at
least the configured minimum. -/
theorem strict_policy_only_if (cfg : Config) (h : JValue)
    (hv : isValidHotel cfg h = true) :
    (∃ s, jget h "id".toList = some (.str s) ∧ jsTrim s ≠ []) ∧
    (∃ s, jget h "name".toList = some (.str s) ∧ 2 ≤ (jsTrim s).length) ∧
    (∃ q, toNumber (jget h "star_rating".toList) = some q ∧
      cfg.minStarRating ≤ q) := by
  unfold isValidHotel at hv
  split at hv
  · simp at hv
  · split at hv
    · simp at hv
    · rename_i hid
      split at hv
      · simp at hv
      · rename_i hname
        rw [Bool.not_eq_true', Bool.not_eq_false] at hid hname
        refine ⟨?_, ?_, ?_⟩
        · rcases hj : jget h "id".toList with _ | v
          · rw [hj] at hid
            simp at hid
          · rw [hj] at hid
            cases v <;> simp_all
        · rcases hj : jget h "name".toList with _ | v
          · rw [hj] at hname
            simp at hname
          · rw [hj] at hname
            cases v <;> simp_all
        · rcases hsr : toNumber (jget h "star_rating".toList) with _ | q
          · rw [hsr] at hv
            simp at hv
          · rw [hsr] at hv
            simp only [] at hv
            split at hv
            · simp at hv
            · rename_i hlt
              exact ⟨q, rfl, by simpa using hlt⟩

theorem strict_policy_only_if_witness :
    (∃ s, jget h6 "id".toList = some (.str s) ∧ jsTrim s ≠ []) ∧
    (∃ s, jget h6 "name".toList = some (.str s) ∧ 2 ≤ (jsTrim s).length) ∧
    (∃ q, toNumber (jget h6 "star_rating".toList) = some q ∧
      part002Defaults.minStarRating ≤ q) :=
  strict_policy_only_if part002Defaults h6 (by decide)

/-- C7 amended: with geo required, the part_002 variant isValidHotel accepts
a record only if its latitude coerces to a finite number in [-90, 90] and its
longitude to a finite number in [-180, 180]; the main.js variant checks only
finiteness (see the counterexample). -/
theorem strict_policy_geo_range (cfg : Config) (h : JValue)
    (hg : cfg.requireGeo = true) (hv : isValidHotel cfg h = true) :
    ∃ lat lng, toNumber (jget h "latitude".toList) = some lat ∧
      toNumber (jget h "longitude".toList) = some lng ∧
      -90 ≤ lat ∧ lat ≤ 90 ∧ -180 ≤ lng ∧ lng ≤ 180 := by
  unfold isValidHotel at hv
  split at hv
  · simp at hv
  · split at hv
    · simp at hv
    · split at hv
      · simp at hv
      · split at hv
        · simp at hv
        · rename_i sr hsr
          split at hv
          · simp at hv
          · split at hv
            · simp at hv
            · split at hv
              · rename_i lat lng hlat hlng
                split at hv
                · simp at hv
                · rename_i hla
                  split at hv
                  · simp at hv
                  · rename_i hlo
                    simp at hla hlo
                    exact ⟨lat, lng, hlat, hlng, by linarith [hla.1],
                      by linarith [hla.2], by linarith [hlo.1],
                      by linarith [hlo.2]⟩
              all_goals simp at hv

theorem strict_policy_geo_range_witness :
    ∃ lat lng, toNumber (jget h6 "latitude".toList) = some lat ∧
      toNumber (jget h6 "longitude".toList) = some lng ∧
      -90 ≤ lat ∧ lat ≤ 90 ∧ -180 ≤ lng ∧ lng ≤ 180 :=
  strict_policy_geo_range part002Defaults h6 rfl (by decide)

